import Mathlib

/-!
Verification of the oro expense-tracker core against its natural-language
specification.  The TypeScript services are shallowly embedded: strings are
`List Char`, timestamps are epoch-millisecond integers, money amounts are
rationals, and the Supabase/Postgres store is an explicit list of rows.
JavaScript built-ins that the code calls but does not implement
(`Date.parse`, `Number(...)`, Postgres `similarity(...)`) are threaded as
explicit function parameters so theorems quantify over every behaviour of
those built-ins.
-/

namespace Oro

/-! ## JavaScript string primitives (on `List Char`) -/

/-- Strings are modelled as lists of characters. -/
abbrev Str := List Char

/-- ASCII whitespace, the fragment of the JS `trim` character class exercised
by the code's inputs. -/
def isWs (c : Char) : Bool :=
  c = ' ' || c = '\t' || c = '\n' || c = '\r'

/-- Embedding of `String.prototype.trim`: drop whitespace from both ends. -/
def jsTrim (s : Str) : Str :=
  ((s.dropWhile isWs).reverse.dropWhile isWs).reverse

/-- Embedding of `String.prototype.split(sep)` for a one-character separator:
always returns at least one (possibly empty) segment. -/
def splitOnChar (sep : Char) : Str → List Str
  | [] => [[]]
  | c :: cs =>
    if c = sep then
      [] :: splitOnChar sep cs
    else
      match splitOnChar sep cs with
      | [] => [[c]]
      | h :: t => (c :: h) :: t

/-- Embedding of `String.prototype.endsWith` for a single character. -/
def endsWithChar (c : Char) (s : Str) : Bool :=
  match s.getLast? with
  | some d => d = c
  | none => false

/-! ## Character classes used by the validators -/

/-- Hexadecimal digit (either case), as in zod's UUID regular expression. -/
def isHexChar (c : Char) : Bool :=
  ('0' ≤ c && c ≤ '9') || ('a' ≤ c && c ≤ 'f') || ('A' ≤ c && c ≤ 'F')

/-- Characters that may appear in an ISO-8601 UTC timestamp string
(digits, '-', ':', '.', 'T', 'Z', '+').  None of them is whitespace or the
cursor delimiter '|'. -/
def isIsoChar (c : Char) : Bool :=
  ('0' ≤ c && c ≤ '9') || c = '-' || c = ':' || c = '.' || c = 'T' || c = 'Z' || c = '+'

/-- Embedding of `z.string().uuid()`: five '-'-separated groups of hex digits
with lengths 8-4-4-4-12.  Since hex digits never contain '-', the regex
`^[0-9a-fA-F]{8}-[0-9a-fA-F]{4}-[0-9a-fA-F]{4}-[0-9a-fA-F]{4}-[0-9a-fA-F]{12}$`
is equivalent to this split-based check. -/
def isUuid (s : Str) : Bool :=
  match splitOnChar '-' s with
  | [a, b, c, d, e] =>
    a.length = 8 && b.length = 4 && c.length = 4 && d.length = 4 && e.length = 12 &&
      (a.all isHexChar && b.all isHexChar && c.all isHexChar && d.all isHexChar &&
        e.all isHexChar)
  | _ => false

/-! ## Cursor codec (src/lib/validation/expenses.ts)

`dp` stands for the JavaScript `Date.parse` built-in: `dp s = some t` when
`Date.parse` yields the epoch-millisecond value `t`, and `none` when it
yields `NaN`.  All codec definitions are parametric in `dp`. -/

/-- A decoded expense cursor: the raw `occurredAt` and `id` segments. -/
structure ExpenseCursor where
  occurredAt : Str
  id : Str
deriving DecidableEq, Repr

/-- Embedding of `encodeExpenseCursor`: join the two segments with '|'. -/
def encodeExpenseCursor (c : ExpenseCursor) : Str :=
  c.occurredAt ++ '|' :: c.id

/-- Embedding of `cursorStringSchema`: trim, reject blank input, split on '|'
into exactly two segments, require the first (trimmed) segment non-empty and
`Date.parse`-able and the second (trimmed) segment a non-empty UUID.
Returns the trimmed string on success (zod's `.trim()` transform), `none` on
any validation issue. -/
def cursorStringSchema (dp : Str → Option Int) (input : Str) : Option Str :=
  let v := jsTrim input
  if v = [] then none
  else
    match splitOnChar '|' v with
    | [rawOccurredAt, rawId] =>
      let occ := jsTrim rawOccurredAt
      let idv := jsTrim rawId
      if occ = [] then none
      else if (dp occ).isNone then none
      else if idv = [] then none
      else if !isUuid idv then none
      else some v
    | _ => none

/-- Embedding of `decodeExpenseCursor`: parse through `cursorStringSchema`
(a failed parse throws, modelled as `none`), then destructure the split of
the parsed string into `{ occurredAt, id }`. -/
def decodeExpenseCursor (dp : Str → Option Int) (input : Str) : Option ExpenseCursor :=
  match cursorStringSchema dp input with
  | none => none
  | some parsed =>
    let segs := splitOnChar '|' parsed
    some { occurredAt := segs.getD 0 [], id := segs.getD 1 [] }

/-! ## Month-over-month metrics (src/lib/services/dashboard/getDashboardData.ts)

JavaScript numbers are embedded as rationals. -/

/-- Embedding of `calculateMoMPercent`: percentage change with an explicit
zero-division guard. -/
def calculateMoMPercent (current previous : ℚ) : ℚ :=
  if previous = 0 then
    if current > 0 then 100 else 0
  else
    (current - previous) / previous * 100

/-- The month-over-month block assembled by `getDashboardData`
(lines 294-295): absolute delta and guarded percent delta. -/
def monthOverMonth (current previous : ℚ) : ℚ × ℚ :=
  (current - previous, calculateMoMPercent current previous)

/-- Embedding of `calculateCategoryPercentages`: each category's share of the
total, 0 when the total is not positive. -/
def categoryPercentage (catTotal total : ℚ) : ℚ :=
  if total > 0 then catTotal / total * 100 else 0

/-! ## Merchant mapping resolution (src/lib/services/merchant-mappings, part_008)

Rows of `merchant_mappings`; the table has a unique constraint on
`(user_id, merchant_key)` (migration 20251014175636).  The Postgres
`similarity` function from pg_trgm is threaded as a parameter `sim`. -/

/-- A `merchant_mappings` row. -/
structure MerchantMapping where
  id : Nat
  userId : Nat
  merchantKey : Str
  categoryId : Nat
  updatedAt : Int
deriving DecidableEq, Repr

/-- The DTO returned by `resolveMerchantMapping`.  `matchType` carries the
TypeScript string literal ("exact" or "trigram" in `src/types.ts`). -/
structure ResolveMerchantMappingMatchDTO where
  categoryId : Nat
  confidence : ℚ
  matchType : Str
  merchantKey : Str
deriving DecidableEq, Repr

/-- Embedding of `normalizeMerchantName`: lowercase, then keep only
`[a-z0-9]` characters (`Char.toLower` covers the ASCII range the regex
lowercases). -/
def normalizeMerchantName (name : Str) : Str :=
  (name.map Char.toLower).filter fun c =>
    ('a' ≤ c && c ≤ 'z') || ('0' ≤ c && c ≤ '9')

/-- Embedding of `findExactMatch`: the `merchant_mappings` row with the exact
`(user_id, merchant_key)` pair, if any (`maybeSingle`; the pair is unique). -/
def findExactMatch (store : List MerchantMapping) (userId : Nat) (merchantKey : Str) :
    Option MerchantMapping :=
  store.find? fun m => m.userId = userId && m.merchantKey = merchantKey

/-- Embedding of the SQL function `find_best_merchant_match`
(migration 20251021000000): among the user's mappings whose
`similarity(merchant_key, p_merchant_key)` is at least the threshold, the one
with the highest similarity (`order by similarity desc limit 1`; ties broken
arbitrarily, here by first position). -/
def findBestMerchantMatch (sim : Str → Str → ℚ) (store : List MerchantMapping)
    (userId : Nat) (merchantKey : Str) (threshold : ℚ) :
    Option (MerchantMapping × ℚ) :=
  let candidates :=
    (store.filter fun m => m.userId = userId && threshold ≤ sim m.merchantKey merchantKey).map
      fun m => (m, sim m.merchantKey merchantKey)
  candidates.foldl
    (fun best c =>
      match best with
      | none => some c
      | some b => if b.2 < c.2 then some c else some b)
    none

/-- Embedding of `findTrigramMatch`: call `find_best_merchant_match` with
threshold 0.8 and repackage the row and similarity. -/
def findTrigramMatch (sim : Str → Str → ℚ) (store : List MerchantMapping)
    (userId : Nat) (merchantKey : Str) : Option (MerchantMapping × ℚ) :=
  findBestMerchantMatch sim store userId merchantKey (mkRat 8 10)

/-- Embedding of `resolveMerchantMapping`: normalize, try the exact stage
(confidence 1.0, matchType "exact"), then the trigram stage (similarity as
confidence, matchType "trigram"), else no match. -/
def resolveMerchantMapping (sim : Str → Str → ℚ) (store : List MerchantMapping)
    (userId : Nat) (merchantName : Str) : Option ResolveMerchantMappingMatchDTO :=
  let merchantKey := normalizeMerchantName merchantName
  match findExactMatch store userId merchantKey with
  | some exactMatch =>
    some
      { categoryId := exactMatch.categoryId
        confidence := 1
        matchType := "exact".data
        merchantKey := exactMatch.merchantKey }
  | none =>
    match findTrigramMatch sim store userId merchantKey with
    | some trigramMatch =>
      some
        { categoryId := trigramMatch.1.categoryId
          confidence := trigramMatch.2
          matchType := "trigram".data
          merchantKey := trigramMatch.1.merchantKey }
    | none => none

/-! ## Expense rows and the list query engine (src/lib/services/expenses/getExpenses.ts)

Rows carry the fields the list query touches.  `occurred_at` values are
epoch-millisecond instants (the store compares `timestamptz` values, not
strings); `id` values are identifiers under the store's total uuid order,
embedded as `Nat`.  `deleted` is the generated column `deleted_at is not
null`. -/

/-- Account enumeration (`cash` / `card`). -/
inductive Account where
  | cash
  | card
deriving DecidableEq, Repr

/-- An `expenses` row, restricted to the fields the list query reads. -/
structure ExpenseRow where
  id : Nat
  userId : Nat
  occurredAt : Int
  categoryId : Nat
  account : Option Account
  deletedAt : Option Int
  searchText : Str
deriving DecidableEq, Repr

/-- The generated `deleted` column: `deleted_at is not null`. -/
def ExpenseRow.deleted (r : ExpenseRow) : Bool :=
  r.deletedAt.isSome

/-- Query-level filters after validation, in the store's value domain:
date bounds as instants, category ids and the cursor as store values, and the
full-text search as the store's match predicate over `search_text`. -/
structure QueryFilters where
  includeDeleted : Bool
  fromBound : Option Int
  toBound : Option Int
  categoryIds : Option (List Nat)
  account : Option Account
  search : Option (Str → Bool)
  cursor : Option (Int × Nat)

/-- The conjunction of row predicates issued by `createExpensesQuery` (plus
the optional `textSearch`): ownership, the soft-delete filter, the date
bounds, the category and account filters, the search match, and
`buildCursorClause`'s strict keyset predicate
`occurred_at < c ∨ (occurred_at = c ∧ id < cid)`. -/
def matchesFilters (userId : Nat) (f : QueryFilters) (r : ExpenseRow) : Bool :=
  r.userId = userId &&
    (f.includeDeleted || !r.deleted) &&
    (match f.fromBound with
      | some t => t ≤ r.occurredAt
      | none => true) &&
    (match f.toBound with
      | some t => r.occurredAt ≤ t
      | none => true) &&
    (match f.categoryIds with
      | some ids => r.categoryId ∈ ids
      | none => true) &&
    (match f.account with
      | some a => r.account = some a
      | none => true) &&
    (match f.search with
      | some p => p r.searchText
      | none => true) &&
    (match f.cursor with
      | some c => r.occurredAt < c.1 || (r.occurredAt = c.1 && r.id < c.2)
      | none => true)

/-- The `order by occurred_at desc, id desc` relation: `a` precedes `b`. -/
def descOrder (a b : ExpenseRow) : Prop :=
  b.occurredAt < a.occurredAt ∨ (a.occurredAt = b.occurredAt ∧ b.id ≤ a.id)

instance : DecidableRel descOrder := fun a b => by
  unfold descOrder
  infer_instance

/-- Embedding of the store's fetch issued by `createExpensesQuery`: filter,
sort descending by `(occurred_at, id)`, and return at most `limit + 1` rows. -/
def runExpensesQuery (store : List ExpenseRow) (userId : Nat) (f : QueryFilters)
    (limit : Nat) : List ExpenseRow :=
  (((store.filter (matchesFilters userId f)).insertionSort descOrder).take (limit + 1))

/-- Embedding of `computeNextCursor`: `none` when no more than `limit` rows
came back, otherwise the `(occurred_at, id)` keys of the row at index
`limit` (the extra row beyond the returned page). -/
def computeNextCursor (rows : List ExpenseRow) (limit : Nat) : Option (Int × Nat) :=
  if rows.length ≤ limit then none
  else (rows.get? limit).map fun next => (next.occurredAt, next.id)

/-- The page assembled by `getExpenses` (lines 254-262).  The cursor is kept
as the `(occurred_at, id)` pair; its string form is `encodeExpenseCursor`. -/
structure ExpenseListPage where
  items : List ExpenseRow
  nextCursor : Option (Int × Nat)
  hasMore : Bool
deriving DecidableEq, Repr

/-- Embedding of the pure core of `getExpenses`: run the `limit + 1` fetch,
then derive `hasMore`, the page of `limit` items, and `computeNextCursor`. -/
def getExpensesPure (store : List ExpenseRow) (userId : Nat) (f : QueryFilters)
    (limit : Nat) : ExpenseListPage :=
  let data := runExpensesQuery store userId f limit
  { items := data.take limit
    nextCursor := computeNextCursor data limit
    hasMore := decide (limit < data.length) }

/-! ## Soft delete and restore (createExpense.ts second part, restoreExpense.ts)

Both services read a row through filtered `maybeSingle` queries and then
update it.  The store is a list of rows with unique ids (the table's primary
key); `now` is the current epoch-millisecond time. -/

/-- The 7-day retention window in milliseconds (`RETENTION_WINDOW_MS`). -/
def retentionWindowMs : Int := 7 * 24 * 60 * 60 * 1000

/-- `softDeleteExpense` error codes (the values reachable in the embedding). -/
inductive DeleteExpenseErrorCode where
  | expenseNotFound
  | expenseQueryFailed
  | expenseDeleteFailed
deriving DecidableEq, Repr

/-- The `DeleteExpenseResponse` DTO. -/
structure DeleteExpenseResponse where
  id : Nat
  deleted : Bool
  deletedAt : Int
deriving DecidableEq, Repr

/-- Embedding of the lookup inside `softDeleteExpense`: the row with matching
`id`, `user_id` and `deleted = false` (`maybeSingle`). -/
def lookupActiveExpense (store : List ExpenseRow) (userId expenseId : Nat) :
    Option ExpenseRow :=
  store.find? fun r => r.id = expenseId && r.userId = userId && r.deleted = false

/-- Embedding of `softDeleteExpense`: verify an owned, non-deleted row exists
(otherwise `EXPENSE_NOT_FOUND` and the store is untouched), then set
`deleted_at` to the current timestamp on the `(id, user_id)` row and answer
`{ id, deleted := true, deletedAt := now }`. -/
def softDeleteExpense (store : List ExpenseRow) (userId expenseId : Nat) (now : Int) :
    Except DeleteExpenseErrorCode DeleteExpenseResponse × List ExpenseRow :=
  match lookupActiveExpense store userId expenseId with
  | none => (Except.error DeleteExpenseErrorCode.expenseNotFound, store)
  | some _ =>
    let store' := store.map fun r =>
      if r.id = expenseId && r.userId = userId then { r with deletedAt := some now } else r
    (Except.ok { id := expenseId, deleted := true, deletedAt := now }, store')

/-- `restoreExpense` error codes (the values reachable in the embedding). -/
inductive RestoreExpenseErrorCode where
  | expenseNotFound
  | expenseNotDeleted
  | retentionWindowExpired
  | expenseQueryFailed
  | expenseUpdateFailed
deriving DecidableEq, Repr

/-- The `RestoreExpenseResponse` DTO. -/
structure RestoreExpenseResponse where
  id : Nat
  deleted : Bool
  restoredAt : Int
deriving DecidableEq, Repr

/-- Embedding of the lookup inside `restoreExpense`: the row with matching
`id`, `user_id` and `deleted = true` (`maybeSingle`). -/
def lookupDeletedExpense (store : List ExpenseRow) (userId expenseId : Nat) :
    Option ExpenseRow :=
  store.find? fun r => r.id = expenseId && r.userId = userId && r.deleted = true

/-- Embedding of `restoreExpense`: verify an owned, soft-deleted row exists
(otherwise `EXPENSE_NOT_FOUND`), defensively check `deleted_at` is set,
reject with `RETENTION_WINDOW_EXPIRED` when more than 7 days have elapsed
since deletion (store untouched), otherwise clear `deleted_at` on the
`(id, user_id)` row and answer `{ id, deleted := false, restoredAt }` with the
row's post-update `updated_at` (the store stamps `updated_at` on update). -/
def restoreExpense (store : List ExpenseRow) (userId expenseId : Nat) (now : Int) :
    Except RestoreExpenseErrorCode RestoreExpenseResponse × List ExpenseRow :=
  match lookupDeletedExpense store userId expenseId with
  | none => (Except.error RestoreExpenseErrorCode.expenseNotFound, store)
  | some existing =>
    match existing.deletedAt with
    | none => (Except.error RestoreExpenseErrorCode.expenseNotDeleted, store)
    | some deletedTime =>
      if retentionWindowMs < now - deletedTime then
        (Except.error RestoreExpenseErrorCode.retentionWindowExpired, store)
      else
        let store' := store.map fun r =>
          if r.id = expenseId && r.userId = userId then { r with deletedAt := none } else r
        (Except.ok { id := expenseId, deleted := false, restoredAt := now }, store')

/-! ## Expense creation (src/lib/services/expenses/createExpense.ts)

The pure decision core: profile lookup, account resolution with the
`last_account` fallback, category existence check, the insert, and the
conditional profile update. -/

/-- A `profiles` row restricted to the fields `createExpense` reads. -/
structure Profile where
  id : Nat
  lastAccount : Option Account
deriving DecidableEq, Repr

/-- `createExpense` error codes. -/
inductive CreateExpenseErrorCode where
  | profileLookupFailed
  | profileNotFound
  | accountRequired
  | categoryLookupFailed
  | categoryNotFound
  | expenseInsertFailed
deriving DecidableEq, Repr

/-- The `CreateExpenseCommand` input, restricted to the fields the account
and category logic reads. -/
structure CreateExpenseCommand where
  account : Option Account
  categoryId : Nat
  occurredAt : Int
  searchText : Str
deriving DecidableEq, Repr

/-- The state `createExpense` reads and writes: profiles, the category ids
that exist, the well-known uncategorized category id, and the expense rows. -/
structure CreateExpenseState where
  profiles : List Profile
  categories : List Nat
  uncategorizedId : Nat
  expenses : List ExpenseRow
deriving Repr

/-- The `CreateExpenseResult` shape: the inserted row and whether the
profile's `last_account` was updated. -/
structure CreateExpenseResult where
  expenseAccount : Account
  expenseId : Nat
  profileAccountUpdated : Bool
deriving DecidableEq, Repr

/-- Embedding of `resolveAccount`: the input's account when provided, else
the profile's stored `last_account`, else the `ACCOUNT_REQUIRED` error. -/
def resolveAccount (input : CreateExpenseCommand) (profile : Profile) :
    Except CreateExpenseErrorCode Account :=
  match input.account with
  | some a => Except.ok a
  | none =>
    match profile.lastAccount with
    | some a => Except.ok a
    | none => Except.error CreateExpenseErrorCode.accountRequired

/-- Embedding of `ensureCategoryExists`: the category must exist, except that
the uncategorized id is always accepted. -/
def ensureCategoryExists (state : CreateExpenseState) (categoryId : Nat) :
    Except CreateExpenseErrorCode Unit :=
  if categoryId ∈ state.categories then Except.ok ()
  else if categoryId = state.uncategorizedId then Except.ok ()
  else Except.error CreateExpenseErrorCode.categoryNotFound

/-- Embedding of `createExpense`: fetch the profile, resolve the account,
check the category, insert the row (with the store-assigned `newId`), then
update the profile's `last_account` only when
`!input.account && profile.last_account !== account`. -/
def createExpense (state : CreateExpenseState) (userId : Nat)
    (input : CreateExpenseCommand) (newId : Nat) :
    Except CreateExpenseErrorCode CreateExpenseResult × CreateExpenseState :=
  match state.profiles.find? fun p => p.id = userId with
  | none => (Except.error CreateExpenseErrorCode.profileNotFound, state)
  | some profile =>
    match resolveAccount input profile with
    | Except.error e => (Except.error e, state)
    | Except.ok account =>
      match ensureCategoryExists state input.categoryId with
      | Except.error e => (Except.error e, state)
      | Except.ok _ =>
        let newRow : ExpenseRow :=
          { id := newId
            userId := userId
            occurredAt := input.occurredAt
            categoryId := input.categoryId
            account := some account
            deletedAt := none
            searchText := input.searchText }
        let inserted := { state with expenses := state.expenses ++ [newRow] }
        let shouldUpdateProfileAccount :=
          input.account.isNone && profile.lastAccount ≠ some account
        let finalState :=
          if shouldUpdateProfileAccount then
            { inserted with
                profiles := inserted.profiles.map fun p =>
                  if p.id = userId then { p with lastAccount := some account } else p }
          else inserted
        (Except.ok
          { expenseAccount := account
            expenseId := newId
            profileAccountUpdated := shouldUpdateProfileAccount },
          finalState)

/-! ## Categorization orchestrator (spec §4.3)

Modelled from the spec: the CategorizationOrchestrator / AI categorize
endpoint is not implemented under src/ — only its REST plan (part_002 §AI),
its response types (`src/types.ts`, `CategorizeExpenseResponse`) and its
`ai_logs` audit table (migration 20251014175636) exist.  The definitions
below follow the spec's words: a 400 ms deadline race against the provider,
a 0.75 auto-apply threshold, top-3 suggestions, and an audit record with
`timedOut` and the elapsed latency. -/

/-- A ranked categorization suggestion from the provider. -/
structure CategorizationSuggestion where
  categoryId : Nat
  confidence : ℚ
deriving DecidableEq, Repr

/-- Modelled from the spec: the observable behaviour of one provider
invocation — how many milliseconds it takes to respond, whether it errors,
and the ranked suggestions it would return. -/
structure ProviderBehavior where
  responseTimeMs : Nat
  errored : Bool
  suggestions : List CategorizationSuggestion
deriving DecidableEq, Repr

/-- The four terminal outcomes of `categorize` (spec §4.3). -/
inductive CategorizationOutcomeKind where
  | mapped
  | autoApplied
  | suggested
  | timedOut
deriving DecidableEq, Repr

/-- The audit record written for a provider invocation (`ai_logs`):
nullable confidence, elapsed latency, the timeout flag, and an error code
when applicable. -/
structure AiLogRecord where
  confidence : Option ℚ
  latencyMs : Nat
  timedOut : Bool
  errorCode : Option Str
deriving DecidableEq, Repr

/-- The result of `categorize`: the outcome kind, the auto- or
mapping-applied category (if any), the retained suggestions, and the audit
record of the provider invocation (absent on the Mapped path, which makes no
provider call). -/
structure CategorizationOutcome where
  kind : CategorizationOutcomeKind
  appliedCategoryId : Option Nat
  appliedConfidence : Option ℚ
  suggestions : List CategorizationSuggestion
  log : Option AiLogRecord
deriving DecidableEq, Repr

/-- The orchestrator's deadline: 400 milliseconds. -/
def categorizeDeadlineMs : Nat := 400

/-- The auto-apply confidence threshold: 0.75. -/
def autoApplyThreshold : ℚ := mkRat 75 100

/-- Modelled from the spec (§4.3): `categorize`.  A mapping match wins
without any provider call; otherwise the provider is raced against the
400 ms deadline — no response within the deadline is the TimedOut outcome
(no suggestions, no category, `timedOut = true`, the elapsed latency);
provider errors degrade the same way but with a distinct error code; a
response in time auto-applies its top suggestion at confidence ≥ 0.75 and
otherwise only returns up to 3 ranked suggestions. -/
def categorize (mappingMatch : Option ResolveMerchantMappingMatchDTO)
    (provider : ProviderBehavior) : CategorizationOutcome :=
  match mappingMatch with
  | some m =>
    { kind := CategorizationOutcomeKind.mapped
      appliedCategoryId := some m.categoryId
      appliedConfidence := some m.confidence
      suggestions := []
      log := none }
  | none =>
    if categorizeDeadlineMs < provider.responseTimeMs then
      { kind := CategorizationOutcomeKind.timedOut
        appliedCategoryId := none
        appliedConfidence := none
        suggestions := []
        log := some
          { confidence := none
            latencyMs := categorizeDeadlineMs
            timedOut := true
            errorCode := none } }
    else if provider.errored then
      { kind := CategorizationOutcomeKind.timedOut
        appliedCategoryId := none
        appliedConfidence := none
        suggestions := []
        log := some
          { confidence := none
            latencyMs := provider.responseTimeMs
            timedOut := false
            errorCode := some "PROVIDER_ERROR".data } }
    else
      let top3 := provider.suggestions.take 3
      match provider.suggestions.head? with
      | some top =>
        if autoApplyThreshold ≤ top.confidence then
          { kind := CategorizationOutcomeKind.autoApplied
            appliedCategoryId := some top.categoryId
            appliedConfidence := some top.confidence
            suggestions := top3
            log := some
              { confidence := some top.confidence
                latencyMs := provider.responseTimeMs
                timedOut := false
                errorCode := none } }
        else
          { kind := CategorizationOutcomeKind.suggested
            appliedCategoryId := none
            appliedConfidence := some top.confidence
            suggestions := top3
            log := some
              { confidence := some top.confidence
                latencyMs := provider.responseTimeMs
                timedOut := false
                errorCode := none } }
      | none =>
        { kind := CategorizationOutcomeKind.suggested
          appliedCategoryId := none
          appliedConfidence := none
          suggestions := []
          log := some
            { confidence := none
              latencyMs := provider.responseTimeMs
              timedOut := false
              errorCode := none } }

/-! ## List filter validation (src/lib/validation/expenses.ts) and the GET
handler (src/pages/api/expenses/index.ts)

The GET handler receives `URLSearchParams`, so every raw field is an
optional string.  `jsNum` stands for the JavaScript `Number(...)` built-in on
trimmed non-empty strings (`none` = NaN); `dp` is `Date.parse` as above.
A `none` result of a schema models a thrown `ZodError`. -/

/-- The named relative time ranges (`TIME_RANGE_VALUES`). -/
inductive TimeRange where
  | thisMonth
  | last7Days
  | lastMonth
deriving DecidableEq, Repr

/-- Embedding of `z.enum(TIME_RANGE_VALUES)`: exact string match. -/
def parseTimeRange (s : Str) : Option TimeRange :=
  if s = "this_month".data then some TimeRange.thisMonth
  else if s = "last_7_days".data then some TimeRange.last7Days
  else if s = "last_month".data then some TimeRange.lastMonth
  else none

/-- Embedding of `z.enum(ACCOUNT_TYPES)`: exact string match. -/
def parseAccount (s : Str) : Option Account :=
  if s = "cash".data then some Account.cash
  else if s = "card".data then some Account.card
  else none

/-- Embedding of `isoTimestampSchema`: trim, reject blank, require a 'Z'
suffix and a `Date.parse`-able value; yields the trimmed string. -/
def isoTimestampSchema (dp : Str → Option Int) (s : Str) : Option Str :=
  let v := jsTrim s
  if v = [] then none
  else if !endsWithChar 'Z' v then none
  else if (dp v).isNone then none
  else some v

/-- Embedding of `booleanStringSchema` on a string input: trimmed, lowercased
value must be "true", "false" or empty. -/
def booleanStringSchema (s : Str) : Option Bool :=
  let normalized := (jsTrim s).map Char.toLower
  if normalized = "true".data then some true
  else if normalized = "false".data then some false
  else if normalized = [] then some false
  else none

/-- Embedding of `limitSchema` on a string input (the handler receives query
strings): trim; empty defaults to 50; otherwise `Number(...)` must yield an
integer between 1 and 50. -/
def limitSchema (jsNum : Str → Option ℚ) (s : Str) : Option Nat :=
  let v := jsTrim s
  if v = [] then some 50
  else
    match jsNum v with
    | none => none
    | some parsed =>
      if parsed.den ≠ 1 then none
      else if parsed < 1 ∨ 50 < parsed then none
      else some parsed.num.toNat

/-- First-occurrence deduplication, the order `Array.from(new Set(...))`
produces. -/
def dedupFirstAux (seen : List Str) : List Str → List Str
  | [] => []
  | x :: xs =>
    if x ∈ seen then dedupFirstAux seen xs
    else x :: dedupFirstAux (x :: seen) xs

/-- Entry point of the first-occurrence deduplication. -/
def dedupFirst (l : List Str) : List Str :=
  dedupFirstAux [] l

/-- The normalized category-id segments of a raw `categoryIds` query string:
split on ',', trim each item, drop empties (the code's `normalized` list
before deduplication). -/
def categorySegments (s : Str) : List Str :=
  let v := jsTrim s
  let list := if v = [] then [] else splitOnChar ',' v
  (list.map jsTrim).filter fun item => item ≠ []

/-- Embedding of `categoryIdsSchema` on a string input: split, trim, drop
empties, deduplicate, require every item to be a UUID and at most 20 distinct
values; an empty list becomes `undefined` (here `some none`). -/
def categoryIdsSchema (s : Str) : Option (Option (List Str)) :=
  let unique := dedupFirst (categorySegments s)
  if !unique.all isUuid then none
  else if 20 < unique.length then none
  else if unique = [] then some none
  else some (some unique)

/-- Embedding of `searchSchema`: trim, at most 200 characters, empty becomes
`undefined` (here `some none`). -/
def searchSchema (s : Str) : Option (Option Str) :=
  let v := jsTrim s
  if 200 < v.length then none
  else if v = [] then some none
  else some (some v)

/-- The raw query-string fields of `GET /api/expenses` (every
`URLSearchParams` entry is a string when present). -/
structure RawListQuery where
  timeRange : Option Str
  fromQ : Option Str
  toQ : Option Str
  categoryIds : Option Str
  account : Option Str
  search : Option Str
  includeDeleted : Option Str
  cursor : Option Str
  limit : Option Str

/-- The validated `ExpenseListFilters` produced by
`normalizeExpenseFilters`, still in the string domain of the wire format. -/
structure ParsedFilters where
  timeRange : Option TimeRange
  fromS : Option Str
  toS : Option Str
  categoryIds : Option (List Str)
  account : Option Account
  search : Option Str
  includeDeleted : Bool
  cursor : Option ExpenseCursor
  limit : Nat

/-- Lift a field validator over an absent-or-present raw field
(`.optional()`: absent skips validation). -/
def optField (raw : Option Str) (p : Str → Option α) : Option (Option α) :=
  match raw with
  | none => some none
  | some s => (p s).map some

/-- Embedding of the cross-field `superRefine` of `filtersSchema`: `from`/`to`
must come together, `from` must not parse later than `to` (a NaN comparison
adds no issue), and a named `timeRange` must not be combined with an explicit
`from`/`to` pair.  `true` means at least one issue was added. -/
def filtersSchemaIssues (dp : Str → Option Int) (timeRangeV : Option TimeRange)
    (fromV toV : Option Str) : Bool :=
  let pairIssue := (fromV.isSome && toV.isNone) || (fromV.isNone && toV.isSome)
  let rangeIssue :=
    match fromV, toV with
    | some f, some t =>
      match dp f, dp t with
      | some a, some b => decide (b < a)
      | _, _ => false
    | _, _ => false
  let comboIssue := timeRangeV.isSome && fromV.isSome && toV.isSome
  pairIssue || rangeIssue || comboIssue

/-- Embedding of `normalizeExpenseFilters`: run `filtersSchema` over the raw
query fields (any field failure or `superRefine` issue throws, modelled as
`none`), then decode the validated cursor string and fill the
`includeDeleted`/`limit` defaults. -/
def normalizeExpenseFilters (dp : Str → Option Int) (jsNum : Str → Option ℚ)
    (raw : RawListQuery) : Option ParsedFilters :=
  match optField raw.timeRange parseTimeRange with
  | none => none
  | some timeRangeV =>
  match optField raw.fromQ (isoTimestampSchema dp) with
  | none => none
  | some fromV =>
  match optField raw.toQ (isoTimestampSchema dp) with
  | none => none
  | some toV =>
  match (match raw.categoryIds with
         | none => some none
         | some s => categoryIdsSchema s) with
  | none => none
  | some categoryIdsV =>
  match optField raw.account parseAccount with
  | none => none
  | some accountV =>
  match (match raw.search with
         | none => some none
         | some s => searchSchema s) with
  | none => none
  | some searchV =>
  match optField raw.includeDeleted booleanStringSchema with
  | none => none
  | some includeDeletedV =>
  match optField raw.cursor (cursorStringSchema dp) with
  | none => none
  | some cursorV =>
  match optField raw.limit (limitSchema jsNum) with
  | none => none
  | some limitV =>
  if filtersSchemaIssues dp timeRangeV fromV toV then none
  else
    match (match cursorV with
           | none => some none
           | some cs => (decodeExpenseCursor dp cs).map some) with
    | none => none
    | some cursorDecoded =>
      some
        { timeRange := timeRangeV
          fromS := fromV
          toS := toV
          categoryIds := categoryIdsV
          account := accountV
          search := searchV
          includeDeleted := includeDeletedV.getD false
          cursor := cursorDecoded
          limit := (limitV.map id).getD 50 }

/-- The store visible to the GET handler: user profiles (for the timezone
lookup `getExpenses` performs first) and the expense rows. -/
structure ListStore where
  profileTimezones : List (Nat × Option Str)
  expenses : List ExpenseRow

/-- The observable responses of `GET /api/expenses`: a 400 validation
rejection (`INVALID_QUERY`) or a 200 page. -/
inductive ListEndpointResponse where
  | invalidQuery
  | ok (page : ExpenseListPage)
deriving Repr

/-- Resolution of the validated string-domain filters into the store's value
domain, as `getExpenses` does: explicit `from`/`to` win (`resolveDateRange`),
else a named range resolves through the user's timezone (`namedRange`
abstracts date-fns plus the current instant); uuids map into the store's
identifier order through `uuidVal`; the search term becomes the store's
`search_text` match predicate through `searchOracle`. -/
def resolveQueryFilters (dp : Str → Option Int) (uuidVal : Str → Nat)
    (searchOracle : Str → Str → Bool) (namedRange : TimeRange → Option Str → Int × Int)
    (tz : Option Str) (f : ParsedFilters) : QueryFilters :=
  let range : Option Int × Option Int :=
    match f.fromS, f.toS with
    | some a, some b => (dp a, dp b)
    | _, _ =>
      match f.timeRange with
      | some tr => ((namedRange tr tz).1, (namedRange tr tz).2)
      | none => (none, none)
  { includeDeleted := f.includeDeleted
    fromBound := range.1
    toBound := range.2
    categoryIds := f.categoryIds.map fun l => l.map uuidVal
    account := f.account
    search := f.search.map searchOracle
    cursor := f.cursor.map fun c => ((dp c.occurredAt).getD 0, uuidVal c.id) }

/-- Embedding of the GET handler pipeline: `normalizeExpenseFilters` first
(a `ZodError` becomes the 400 `INVALID_QUERY` response), and only then the
`getExpenses` service, which starts with the profile timezone read and runs
the list query. -/
def handleListExpenses (dp : Str → Option Int) (jsNum : Str → Option ℚ)
    (uuidVal : Str → Nat) (searchOracle : Str → Str → Bool)
    (namedRange : TimeRange → Option Str → Int × Int) (userId : Nat)
    (raw : RawListQuery) (store : ListStore) : ListEndpointResponse :=
  match normalizeExpenseFilters dp jsNum raw with
  | none => ListEndpointResponse.invalidQuery
  | some f =>
    let tz := (store.profileTimezones.find? fun p => p.1 = userId).bind Prod.snd
    ListEndpointResponse.ok
      (getExpensesPure store.expenses userId
        (resolveQueryFilters dp uuidVal searchOracle namedRange tz f) f.limit)

/-! ## Concrete scenario inputs

Fixed stores, rows and oracle instantiations used by counterexamples and
witnesses.  The oracle instantiations agree with the JavaScript built-ins on
the strings they are applied to. -/

/-- Newest of the three pagination-scenario expenses. -/
def exp1 : ExpenseRow :=
  { id := 3, userId := 1, occurredAt := 300, categoryId := 0, account := none,
    deletedAt := none, searchText := [] }

/-- Middle pagination-scenario expense. -/
def exp2 : ExpenseRow :=
  { id := 2, userId := 1, occurredAt := 200, categoryId := 0, account := none,
    deletedAt := none, searchText := [] }

/-- Oldest pagination-scenario expense. -/
def exp3 : ExpenseRow :=
  { id := 1, userId := 1, occurredAt := 100, categoryId := 0, account := none,
    deletedAt := none, searchText := [] }

/-- Query filters with nothing set (`includeDeleted` defaulted to false). -/
def noFilters : QueryFilters :=
  { includeDeleted := false, fromBound := none, toBound := none,
    categoryIds := none, account := none, search := none, cursor := none }

/-- Page 1 of the pagination scenario: 3 matching expenses, limit 2. -/
def scenarioPageOne : ExpenseListPage :=
  getExpensesPure [exp1, exp2, exp3] 1 noFilters 2

/-- Page 2 of the pagination scenario: the same call resumed with page 1's
`nextCursor`. -/
def scenarioPageTwo : ExpenseListPage :=
  getExpensesPure [exp1, exp2, exp3] 1
    { noFilters with cursor := scenarioPageOne.nextCursor } 2

/-- The user's "starbucks" → category 7 mapping (spec scenario). -/
def starbucksMapping : MerchantMapping :=
  { id := 1, userId := 1, merchantKey := "starbucks".data, categoryId := 7, updatedAt := 0 }

/-- The user's "target" → category 5 mapping (spec fuzzy scenario). -/
def targetMapping : MerchantMapping :=
  { id := 2, userId := 1, merchantKey := "target".data, categoryId := 5, updatedAt := 0 }

/-- A pg_trgm `similarity` instantiation scoring "target" against "targt" at
0.83, as in the spec's fuzzy scenario. -/
def simTargt : Str → Str → ℚ := fun a b =>
  if a = "target".data ∧ b = "targt".data then mkRat 83 100 else 0

/-- A provider that has not responded at the 400 ms deadline. -/
def slowProvider : ProviderBehavior :=
  { responseTimeMs := 450, errored := false,
    suggestions := [{ categoryId := 9, confidence := mkRat 82 100 }] }

/-- A soft-deleted row (deleted at instant 0) owned by user 1. -/
def wDeletedRow : ExpenseRow :=
  { id := 5, userId := 1, occurredAt := 10, categoryId := 0, account := none,
    deletedAt := some 0, searchText := [] }

/-- A live (non-deleted) row owned by user 1. -/
def wActiveRow : ExpenseRow :=
  { id := 6, userId := 1, occurredAt := 20, categoryId := 0, account := none,
    deletedAt := none, searchText := [] }

/-- A profile for user 1 whose `last_account` default is `card`. -/
def wProfileCard : Profile := { id := 1, lastAccount := some Account.card }

/-- A profile for user 2 with no `last_account` default. -/
def wProfileEmpty : Profile := { id := 2, lastAccount := none }

/-- Creation state with both witness profiles and category 4 existing. -/
def wCreateState : CreateExpenseState :=
  { profiles := [wProfileCard, wProfileEmpty], categories := [4],
    uncategorizedId := 0, expenses := [] }

/-- A `Date.parse` instantiation for the two witness timestamps (values in
epoch milliseconds, as `Date.parse` returns for these strings). -/
def dpW : Str → Option Int := fun s =>
  if s = "2025-01-01T00:00:00.000Z".data then some 1735689600000
  else if s = "2025-02-02T00:00:00.000Z".data then some 1738454400000
  else none

/-- A `Number(...)` instantiation for the witness limit strings. -/
def jsNumW : Str → Option ℚ := fun s =>
  if s = "0".data then some 0 else none

/-- An empty raw query (every parameter absent). -/
def rawEmpty : RawListQuery :=
  { timeRange := none, fromQ := none, toQ := none, categoryIds := none,
    account := none, search := none, includeDeleted := none, cursor := none,
    limit := none }

/-- Raw query combining a named time range with an explicit from/to pair. -/
def rawCombinedRange : RawListQuery :=
  { rawEmpty with
      timeRange := some "this_month".data
      fromQ := some "2025-01-01T00:00:00.000Z".data
      toQ := some "2025-02-02T00:00:00.000Z".data }

/-- Raw query supplying `from` without `to`. -/
def rawFromOnly : RawListQuery :=
  { rawEmpty with fromQ := some "2025-01-01T00:00:00.000Z".data }

/-- Raw query whose `from` parses later than its `to`. -/
def rawFromAfterTo : RawListQuery :=
  { rawEmpty with
      fromQ := some "2025-02-02T00:00:00.000Z".data
      toQ := some "2025-01-01T00:00:00.000Z".data }

/-- Raw query with 21 distinct category-id segments. -/
def rawTooManyCategories : RawListQuery :=
  { rawEmpty with
      categoryIds := some "a,b,c,d,e,f,g,h,i,j,k,l,m,n,o,p,q,r,s,t,u".data }

/-- Raw query with limit 0 (outside [1, 50]). -/
def rawZeroLimit : RawListQuery :=
  { rawEmpty with limit := some "0".data }

/-- Raw query with a structurally invalid cursor (no delimiter). -/
def rawBadCursor : RawListQuery :=
  { rawEmpty with cursor := some "not-a-cursor".data }

/-- An empty handler store. -/
def emptyListStore : ListStore := { profileTimezones := [], expenses := [] }

/-- A `Date.parse` instantiation for the codec witness timestamp. -/
def dpC2 : Str → Option Int := fun s =>
  if s = "2025-01-15T12:00:00.000Z".data then some 1736942400000 else none

end Oro


namespace Oro

/-! ## Helper lemmas -/

/-- The best-candidate fold keeps only pairs drawn from the candidate list or
the accumulator, so its similarity stays above any bound all of them meet. -/
theorem foldBest_le (threshold : ℚ) :
    ∀ (l : List (MerchantMapping × ℚ)) (acc : Option (MerchantMapping × ℚ))
      (p : MerchantMapping × ℚ),
      (∀ c ∈ l, threshold ≤ c.2) →
      (∀ b, acc = some b → threshold ≤ b.2) →
      l.foldl
        (fun best c =>
          match best with
          | none => some c
          | some b => if b.2 < c.2 then some c else some b)
        acc = some p →
      threshold ≤ p.2 := by
  intro l
  induction l with
  | nil =>
    intro acc p _ hacc h
    exact hacc p h
  | cons c cs ih =>
    intro acc p hl hacc h
    simp only [List.foldl_cons] at h
    refine ih _ p (fun x hx => hl x (List.mem_cons_of_mem _ hx)) ?_ h
    intro b hb
    cases acc with
    | none =>
      simp only [Option.some.injEq] at hb
      subst hb
      exact hl c (List.mem_cons_self _ _)
    | some a =>
      by_cases hca : a.2 < c.2
      · simp only [if_pos hca, Option.some.injEq] at hb
        subst hb
        exact hl c (List.mem_cons_self _ _)
      · simp only [if_neg hca, Option.some.injEq] at hb
        subst hb
        exact hacc a rfl

/-- Every match returned by `find_best_merchant_match` scored at least the
requested threshold (its SQL filters on `similarity(...) >= p_threshold`). -/
theorem findBestMerchantMatch_le (sim : Str → Str → ℚ) (store : List MerchantMapping)
    (userId : Nat) (key : Str) (threshold : ℚ) (p : MerchantMapping × ℚ)
    (h : findBestMerchantMatch sim store userId key threshold = some p) :
    threshold ≤ p.2 := by
  unfold findBestMerchantMatch at h
  refine foldBest_le threshold _ none p ?_ ?_ h
  · intro c hc
    simp only [List.mem_map] at hc
    obtain ⟨m, hm, rfl⟩ := hc
    simp only [List.mem_filter, Bool.and_eq_true, decide_eq_true_eq] at hm
    exact hm.2.2
  · intro b hb
    exact absurd hb (by simp)

end Oro

namespace Oro

/-! ## C5: month-over-month deltas -/

/-- C5: in every dashboard snapshot the absolute month-over-month delta is
`current - previous`; the percent delta is `(current - previous) / previous * 100`
when `previous` is nonzero, and the explicit zero-division guard yields 100
when `previous = 0 < current` and 0 otherwise; in particular (previous 0,
current 500) gives percent 100, (0, 0) gives 0, and (1000, 1100) gives
absolute 100 and percent 10. -/
theorem monthOverMonth_spec (current previous : ℚ) :
    (monthOverMonth current previous).1 = current - previous ∧
    (previous ≠ 0 →
      (monthOverMonth current previous).2 = (current - previous) / previous * 100) ∧
    (previous = 0 →
      (monthOverMonth current previous).2 = if current > 0 then 100 else 0) ∧
    monthOverMonth 500 0 = (500, 100) ∧
    monthOverMonth 0 0 = (0, 0) ∧
    monthOverMonth 1100 1000 = (100, 10) := by
  refine ⟨rfl, ?_, ?_, ?_, ?_, ?_⟩
  · intro h
    simp [monthOverMonth, calculateMoMPercent, h]
  · intro h
    simp [monthOverMonth, calculateMoMPercent, h]
  · norm_num [monthOverMonth, calculateMoMPercent, Prod.ext_iff]
  · norm_num [monthOverMonth, calculateMoMPercent, Prod.ext_iff]
  · norm_num [monthOverMonth, calculateMoMPercent, Prod.ext_iff]

/-- C5 witness: the two guarded branches of `monthOverMonth_spec` discharged
at (1100, 1000) and (500, 0). -/
theorem monthOverMonth_spec_witness :
    ((1000 : ℚ) ≠ 0 ∧ (monthOverMonth 1100 1000).2 = (1100 - 1000) / 1000 * 100) ∧
    ((0 : ℚ) = 0 ∧ (monthOverMonth 500 0).2 = if (500 : ℚ) > 0 then 100 else 0) :=
  ⟨⟨by norm_num, (monthOverMonth_spec 1100 1000).2.1 (by norm_num)⟩,
    ⟨rfl, (monthOverMonth_spec 500 0).2.2.1 rfl⟩⟩

/-! ## C3: exact merchant match -/

/-- C3: whenever a merchant mapping with key equal to the normalized input
exists for the user, `resolveMerchantMapping` answers that mapping with
confidence exactly 1.0 and matchType "exact", and the fuzzy (trigram) stage
is never executed: the result is the same under every similarity oracle. -/
theorem resolveMerchantMapping_exact_spec (sim sim2 : Str → Str → ℚ)
    (store : List MerchantMapping) (userId : Nat) (merchantName : Str)
    (m : MerchantMapping)
    (h : findExactMatch store userId (normalizeMerchantName merchantName) = some m) :
    resolveMerchantMapping sim store userId merchantName =
      some { categoryId := m.categoryId, confidence := 1, matchType := "exact".data,
             merchantKey := m.merchantKey } ∧
    resolveMerchantMapping sim store userId merchantName =
      resolveMerchantMapping sim2 store userId merchantName := by
  constructor <;> simp only [resolveMerchantMapping, h]

/-- C3 witness: the spec's "Starbucks" scenario, resolved under two
different similarity oracles. -/
theorem resolveMerchantMapping_exact_spec_witness :
    (findExactMatch [starbucksMapping] 1 (normalizeMerchantName "Starbucks".data) =
      some starbucksMapping) ∧
    resolveMerchantMapping (fun _ _ => 0) [starbucksMapping] 1 "Starbucks".data =
      some { categoryId := 7, confidence := 1, matchType := "exact".data,
             merchantKey := "starbucks".data } ∧
    resolveMerchantMapping (fun _ _ => 0) [starbucksMapping] 1 "Starbucks".data =
      resolveMerchantMapping (fun _ _ => 1) [starbucksMapping] 1 "Starbucks".data := by
  have h := resolveMerchantMapping_exact_spec (fun _ _ => 0) (fun _ _ => 1)
    [starbucksMapping] 1 "Starbucks".data starbucksMapping (by decide)
  exact ⟨by decide, h.1, h.2⟩

/-! ## C8: categorization deadline -/

/-- C8: when no mapping matched and the external provider has not responded
400 milliseconds after invocation, `categorize` terminates with the TimedOut
outcome: no suggestions, no auto-applied category, and an audit record with
`timedOut = true` and the elapsed latency (the 400 ms deadline). -/
theorem categorize_timeout_spec (provider : ProviderBehavior)
    (h : categorizeDeadlineMs < provider.responseTimeMs) :
    categorize none provider =
      { kind := CategorizationOutcomeKind.timedOut
        appliedCategoryId := none
        appliedConfidence := none
        suggestions := []
        log := some { confidence := none, latencyMs := categorizeDeadlineMs,
                      timedOut := true, errorCode := none } } := by
  simp [categorize, h]

/-- C8 witness: a provider still silent at 450 ms yields the TimedOut
outcome. -/
theorem categorize_timeout_spec_witness :
    categorizeDeadlineMs < slowProvider.responseTimeMs ∧
    categorize none slowProvider =
      { kind := CategorizationOutcomeKind.timedOut
        appliedCategoryId := none
        appliedConfidence := none
        suggestions := []
        log := some { confidence := none, latencyMs := categorizeDeadlineMs,
                      timedOut := true, errorCode := none } } :=
  ⟨by decide, categorize_timeout_spec slowProvider (by decide)⟩

/-! ## C4: fuzzy merchant match -/

/-- C4 counterexample: with the user's "target" mapping and similarity 0.83
against "targt", the non-exact match carries matchType "trigram" — not the
"fuzzy" label the claim states (the boundary type in `src/types.ts` is
`"exact" | "trigram"`). -/
theorem resolveMerchantMapping_matchType_counterexample :
    resolveMerchantMapping simTargt [targetMapping] 1 "targt".data =
      some { categoryId := 5, confidence := mkRat 83 100, matchType := "trigram".data,
             merchantKey := "target".data } ∧
    "trigram".data ≠ "fuzzy".data := by
  exact ⟨by decide, by decide⟩

/-- C4 (amended): every non-exact match returned by `resolveMerchantMapping`
has confidence ≥ 0.8, is never returned when an exact match exists, and
carries matchType "trigram" — the boundary's matchType is always one of
{exact, trigram}. -/
theorem resolveMerchantMapping_fuzzy_spec (sim : Str → Str → ℚ)
    (store : List MerchantMapping) (userId : Nat) (merchantName : Str)
    (dto : ResolveMerchantMappingMatchDTO)
    (h : resolveMerchantMapping sim store userId merchantName = some dto)
    (hne : dto.matchType ≠ "exact".data) :
    dto.matchType = "trigram".data ∧ mkRat 8 10 ≤ dto.confidence ∧
    findExactMatch store userId (normalizeMerchantName merchantName) = none := by
  simp only [resolveMerchantMapping] at h
  cases hexact : findExactMatch store userId (normalizeMerchantName merchantName) with
  | some m =>
    rw [hexact] at h
    simp only [Option.some.injEq] at h
    subst h
    exact absurd rfl hne
  | none =>
    rw [hexact] at h
    cases htri : findTrigramMatch sim store userId (normalizeMerchantName merchantName) with
    | none =>
      rw [htri] at h
      exact Option.noConfusion h
    | some p =>
      rw [htri] at h
      simp only [Option.some.injEq] at h
      subst h
      exact ⟨rfl, findBestMerchantMatch_le sim store userId _ (mkRat 8 10) p htri, rfl⟩

/-- C4 witness: the amended statement discharged on the spec's "targt"
scenario. -/
theorem resolveMerchantMapping_fuzzy_spec_witness :
    (resolveMerchantMapping simTargt [targetMapping] 1 "targt".data =
      some { categoryId := 5, confidence := mkRat 83 100, matchType := "trigram".data,
             merchantKey := "target".data }) ∧
    ("trigram".data : Str) ≠ "exact".data ∧
    mkRat 8 10 ≤ mkRat 83 100 ∧
    findExactMatch [targetMapping] 1 (normalizeMerchantName "targt".data) = none := by
  have h := resolveMerchantMapping_fuzzy_spec simTargt [targetMapping] 1 "targt".data
    { categoryId := 5, confidence := mkRat 83 100, matchType := "trigram".data,
      merchantKey := "target".data } (by decide) (by decide)
  exact ⟨by decide, by decide, h.2.1, h.2.2⟩

end Oro


namespace Oro

/-! ## C10: soft delete is not idempotent -/

/-- C10: for every already-soft-deleted expense (`deletedAt` non-null),
`softDeleteExpense` fails with EXPENSE_NOT_FOUND and leaves the store —
including the original `deletedAt` — unchanged; on an owned non-deleted
expense it sets `deletedAt` to the current time and answers
`deleted = true` with that timestamp. -/
theorem softDeleteExpense_spec (store : List ExpenseRow) (userId expenseId : Nat)
    (now : Int) :
    (∀ r ∈ store, r.id = expenseId → r.userId = userId → r.deletedAt ≠ none →
      (store.map ExpenseRow.id).Nodup →
      softDeleteExpense store userId expenseId now =
        (Except.error DeleteExpenseErrorCode.expenseNotFound, store)) ∧
    (∀ r, lookupActiveExpense store userId expenseId = some r →
      (softDeleteExpense store userId expenseId now).1 =
        Except.ok { id := expenseId, deleted := true, deletedAt := now } ∧
      (softDeleteExpense store userId expenseId now).2 =
        store.map fun q =>
          if q.id = expenseId && q.userId = userId then { q with deletedAt := some now }
          else q) := by
  constructor
  · intro r hr hid huser hdel hnodup
    have hnone : lookupActiveExpense store userId expenseId = none := by
      cases hl : lookupActiveExpense store userId expenseId with
      | none => rfl
      | some q =>
        exfalso
        have hq := List.find?_some hl
        have hqmem := List.mem_of_find?_eq_some hl
        simp only [Bool.and_eq_true, decide_eq_true_eq] at hq
        have hqr : q = r :=
          List.inj_on_of_nodup_map hnodup hqmem hr (by rw [hq.1.1, hid])
        rw [hqr] at hq
        have hfalse : r.deleted = false := by simpa using hq.2
        rw [ExpenseRow.deleted] at hfalse
        cases hopt : r.deletedAt with
        | none => exact hdel hopt
        | some v => rw [hopt] at hfalse; simp at hfalse
    unfold softDeleteExpense
    rw [hnone]
  · intro r hr
    unfold softDeleteExpense
    rw [hr]
    exact ⟨rfl, rfl⟩

/-- C10 witness: both branches of `softDeleteExpense_spec` discharged on a
two-row store — deleting the already-deleted row 5 fails and changes
nothing, deleting the live row 6 stamps it with the current time. -/
theorem softDeleteExpense_spec_witness :
    softDeleteExpense [wDeletedRow, wActiveRow] 1 5 1000 =
      (Except.error DeleteExpenseErrorCode.expenseNotFound, [wDeletedRow, wActiveRow]) ∧
    (softDeleteExpense [wDeletedRow, wActiveRow] 1 6 1000).1 =
      Except.ok { id := 6, deleted := true, deletedAt := 1000 } := by
  constructor
  · exact (softDeleteExpense_spec [wDeletedRow, wActiveRow] 1 5 1000).1 wDeletedRow
      (by decide) (by decide) (by decide) (by decide) (by decide)
  · exact ((softDeleteExpense_spec [wDeletedRow, wActiveRow] 1 6 1000).2 wActiveRow
      (by decide)).1

/-! ## C7: restore within the retention window -/

/-- C7: `restoreExpense` clears `deletedAt` (answering `deleted = false`)
only when an owned, currently soft-deleted row exists whose `deletedAt` is at
most 7 days before the current time; when more than 7 days have elapsed it
fails with the distinct RETENTION_WINDOW_EXPIRED error and the store —
including the set `deletedAt` — is unchanged. -/
theorem restoreExpense_spec (store : List ExpenseRow) (userId expenseId : Nat)
    (now : Int) :
    (∀ res store2, restoreExpense store userId expenseId now = (Except.ok res, store2) →
      ∃ r t, lookupDeletedExpense store userId expenseId = some r ∧
        r.deletedAt = some t ∧ now - t ≤ retentionWindowMs ∧
        res = { id := expenseId, deleted := false, restoredAt := now } ∧
        store2 = store.map fun q =>
          if q.id = expenseId && q.userId = userId then { q with deletedAt := none }
          else q) ∧
    (∀ r t, lookupDeletedExpense store userId expenseId = some r →
      r.deletedAt = some t → retentionWindowMs < now - t →
      restoreExpense store userId expenseId now =
        (Except.error RestoreExpenseErrorCode.retentionWindowExpired, store)) := by
  constructor
  · intro res store2 h
    unfold restoreExpense at h
    split at h
    · exact absurd (congrArg Prod.fst h) (by simp)
    · rename_i r hl
      split at h
      · exact absurd (congrArg Prod.fst h) (by simp)
      · rename_i t hda
        split at h
        · exact absurd (congrArg Prod.fst h) (by simp)
        · rename_i hw
          refine ⟨r, t, hl, hda, le_of_not_lt hw, ?_, ?_⟩
          · simpa using (congrArg Prod.fst h).symm
          · simpa using (congrArg Prod.snd h).symm
  · intro r t hl hda hw
    simp only [restoreExpense, hl, hda, if_pos hw]

/-- C7 witness: both directions of `restoreExpense_spec` discharged — the
row deleted at instant 0 restores at `now = 1000` inside the window, and is
rejected with RETENTION_WINDOW_EXPIRED one millisecond past 7 days. -/
theorem restoreExpense_spec_witness :
    (∃ r t, lookupDeletedExpense [wDeletedRow] 1 5 = some r ∧
      r.deletedAt = some t ∧ (1000 : Int) - t ≤ retentionWindowMs ∧
      ({ id := 5, deleted := false, restoredAt := 1000 } : RestoreExpenseResponse) =
        { id := 5, deleted := false, restoredAt := 1000 } ∧
      (restoreExpense [wDeletedRow] 1 5 1000).2 = [wDeletedRow].map fun q =>
        if q.id = 5 && q.userId = 1 then { q with deletedAt := none } else q) ∧
    restoreExpense [wDeletedRow] 1 5 604800001 =
      (Except.error RestoreExpenseErrorCode.retentionWindowExpired, [wDeletedRow]) := by
  constructor
  · exact (restoreExpense_spec [wDeletedRow] 1 5 1000).1
      { id := 5, deleted := false, restoredAt := 1000 }
      ((restoreExpense [wDeletedRow] 1 5 1000).2) rfl
  · exact (restoreExpense_spec [wDeletedRow] 1 5 604800001).2 wDeletedRow 0
      (by decide) (by decide) (by decide)

end Oro


namespace Oro

/-! ## C9: account resolution in createExpense -/

/-- C9: the persisted account is the input's account when provided, otherwise
the profile's stored `last_account`; when both are absent `createExpense`
fails with ACCOUNT_REQUIRED before inserting any expense row (the state is
untouched); and the profile's `last_account` is updated only when the
fallback was used and the resolved account differs from the stored default. -/
theorem createExpense_account_spec (state : CreateExpenseState) (userId : Nat)
    (input : CreateExpenseCommand) (newId : Nat) (profile : Profile)
    (hprof : state.profiles.find? (fun p => p.id = userId) = some profile) :
    (∀ a res state2, input.account = some a →
      createExpense state userId input newId = (Except.ok res, state2) →
      res.expenseAccount = a) ∧
    (∀ b res state2, input.account = none → profile.lastAccount = some b →
      createExpense state userId input newId = (Except.ok res, state2) →
      res.expenseAccount = b) ∧
    (input.account = none → profile.lastAccount = none →
      createExpense state userId input newId =
        (Except.error CreateExpenseErrorCode.accountRequired, state)) ∧
    (∀ res state2, createExpense state userId input newId = (Except.ok res, state2) →
      state2.expenses = state.expenses ++
        [{ id := newId, userId := userId, occurredAt := input.occurredAt,
           categoryId := input.categoryId, account := some res.expenseAccount,
           deletedAt := none, searchText := input.searchText }]) ∧
    (∀ res state2, createExpense state userId input newId = (Except.ok res, state2) →
      res.profileAccountUpdated = true →
      input.account = none ∧ profile.lastAccount ≠ some res.expenseAccount) := by
  refine ⟨?_, ?_, ?_, ?_, ?_⟩
  · intro a res state2 hacct h
    simp only [createExpense, hprof, resolveAccount, hacct] at h
    split at h
    · simp at h
    · simp only [Prod.mk.injEq, Except.ok.injEq] at h
      obtain ⟨hres, -⟩ := h
      subst hres
      rfl
  · intro b res state2 hacct hlast h
    simp only [createExpense, hprof, resolveAccount, hacct, hlast] at h
    split at h
    · simp at h
    · simp only [Prod.mk.injEq, Except.ok.injEq] at h
      obtain ⟨hres, -⟩ := h
      subst hres
      rfl
  · intro hacct hlast
    simp only [createExpense, hprof, resolveAccount, hacct, hlast]
  · intro res state2 h
    simp only [createExpense, hprof] at h
    split at h
    · simp at h
    · rename_i account hacc
      split at h
      · simp at h
      · simp only [Prod.mk.injEq, Except.ok.injEq] at h
        obtain ⟨hres, hst⟩ := h
        subst hres
        rw [← hst]
        split
        · rfl
        · rfl
  · intro res state2 h hupd
    simp only [createExpense, hprof] at h
    split at h
    · simp at h
    · rename_i account hacc
      split at h
      · simp at h
      · simp only [Prod.mk.injEq, Except.ok.injEq] at h
        obtain ⟨hres, -⟩ := h
        subst hres
        simp only at hupd
        have hupd2 :
            (input.account.isNone && decide (¬profile.lastAccount = some account)) = true :=
          hupd
        simp only [Bool.and_eq_true, Option.isNone_iff_eq_none, decide_eq_true_eq] at hupd2
        exact hupd2

/-- C9 witness: the guarded branches of `createExpense_account_spec`
discharged — an explicit `cash` account wins, user 1 with no explicit
account falls back to the profile's `card` default, and user 2 (no default,
no explicit account) is rejected with ACCOUNT_REQUIRED with the state
untouched. -/
theorem createExpense_account_spec_witness :
    (({ expenseAccount := Account.cash, expenseId := 12,
        profileAccountUpdated := false } : CreateExpenseResult).expenseAccount =
      Account.cash) ∧
    (({ expenseAccount := Account.card, expenseId := 11,
        profileAccountUpdated := false } : CreateExpenseResult).expenseAccount =
      Account.card) ∧
    createExpense wCreateState 2
        { account := none, categoryId := 4, occurredAt := 0, searchText := [] } 13 =
      (Except.error CreateExpenseErrorCode.accountRequired, wCreateState) := by
  refine ⟨?_, ?_, ?_⟩
  · exact (createExpense_account_spec wCreateState 1
      { account := some Account.cash, categoryId := 4, occurredAt := 0, searchText := [] }
      12 wProfileCard (by decide)).1 Account.cash
      { expenseAccount := Account.cash, expenseId := 12, profileAccountUpdated := false }
      (createExpense wCreateState 1
        { account := some Account.cash, categoryId := 4, occurredAt := 0, searchText := [] }
        12).2 rfl rfl
  · exact (createExpense_account_spec wCreateState 1
      { account := none, categoryId := 4, occurredAt := 0, searchText := [] }
      11 wProfileCard (by decide)).2.1 Account.card
      { expenseAccount := Account.card, expenseId := 11, profileAccountUpdated := false }
      (createExpense wCreateState 1
        { account := none, categoryId := 4, occurredAt := 0, searchText := [] }
        11).2 rfl rfl rfl
  · exact (createExpense_account_spec wCreateState 2
      { account := none, categoryId := 4, occurredAt := 0, searchText := [] }
      13 wProfileEmpty (by decide)).2.2.1 rfl rfl

/-! ## C1: keyset pagination drops the boundary row -/

/-- C1 (code bug evaluated at the failing input): with 3 matching expenses
(newest `exp1` … oldest `exp3`) and limit 2, a full listing returns all
three rows, but page 1's `nextCursor` is `computeNextCursor`'s keys of the
row at index `limit` — `exp3`'s `(100, 1)`, not `exp2`'s `(200, 2)` as the
claim states — and since `buildCursorClause` resumes strictly after the
cursor position, page 2 is empty: `exp3` is omitted and the two pages do not
reassemble the unpaginated listing. -/
theorem getExpenses_pagination_failing_input :
    (getExpensesPure [exp1, exp2, exp3] 1 noFilters 50).items = [exp1, exp2, exp3] ∧
    scenarioPageOne.items = [exp1, exp2] ∧
    scenarioPageOne.hasMore = true ∧
    scenarioPageOne.nextCursor = some (exp3.occurredAt, exp3.id) ∧
    (exp3.occurredAt, exp3.id) ≠ (exp2.occurredAt, exp2.id) ∧
    scenarioPageTwo.items = [] ∧
    scenarioPageTwo.hasMore = false ∧
    scenarioPageOne.items ++ scenarioPageTwo.items ≠
      (getExpensesPure [exp1, exp2, exp3] 1 noFilters 50).items := by
  decide


/-! ## String lemmas for the cursor codec -/

/-- `dropWhile` is the identity when no character satisfies the predicate. -/
theorem dropWhile_eq_self_of_all (p : Char → Bool) (s : Str)
    (h : ∀ c ∈ s, p c = false) : s.dropWhile p = s := by
  cases s with
  | nil => rfl
  | cons a t =>
    rw [List.dropWhile_cons, h a (List.mem_cons_self a t)]
    simp

/-- `jsTrim` is the identity on whitespace-free strings. -/
theorem jsTrim_eq_self (s : Str) (h : ∀ c ∈ s, isWs c = false) : jsTrim s = s := by
  unfold jsTrim
  rw [dropWhile_eq_self_of_all isWs s h,
    dropWhile_eq_self_of_all isWs s.reverse fun c hc => h c (List.mem_reverse.mp hc),
    List.reverse_reverse]

/-- Splitting a string that does not contain the separator yields one
segment. -/
theorem splitOnChar_not_mem (sep : Char) (s : Str) (h : sep ∉ s) :
    splitOnChar sep s = [s] := by
  induction s with
  | nil => rfl
  | cons c cs ih =>
    have hc : ¬(c = sep) := fun e => h (e ▸ List.mem_cons_self c cs)
    have hcs : sep ∉ cs := fun e => h (List.mem_cons_of_mem c e)
    simp [splitOnChar, hc, ih hcs]

/-- Splitting around one separator occurrence peels off the prefix. -/
theorem splitOnChar_append (sep : Char) (a b : Str) (h : sep ∉ a) :
    splitOnChar sep (a ++ sep :: b) = a :: splitOnChar sep b := by
  induction a with
  | nil => simp [splitOnChar]
  | cons c cs ih =>
    have hc : ¬(c = sep) := fun e => h (e ▸ List.mem_cons_self c cs)
    have hcs : sep ∉ cs := fun e => h (List.mem_cons_of_mem c e)
    have hne : splitOnChar sep (cs ++ sep :: b) = cs :: splitOnChar sep b := ih hcs
    simp [splitOnChar, hc, hne]

/-- Every character of a string lands in the separator or in one of the
segments of its split. -/
theorem mem_splitOnChar (sep : Char) (s : Str) (c : Char) (hc : c ∈ s) :
    c = sep ∨ ∃ seg ∈ splitOnChar sep s, c ∈ seg := by
  induction s with
  | nil => cases hc
  | cons a t ih =>
    rcases List.mem_cons.mp hc with rfl | hct
    · by_cases ha : c = sep
      · exact Or.inl ha
      · right
        cases hsp : splitOnChar sep t with
        | nil => exact ⟨[c], by simp [splitOnChar, ha, hsp], by simp⟩
        | cons hseg tsegs => exact ⟨c :: hseg, by simp [splitOnChar, ha, hsp], by simp⟩
    · rcases ih hct with h | ⟨seg, hseg, hcseg⟩
      · exact Or.inl h
      · by_cases ha : a = sep
        · exact Or.inr ⟨seg, by simp [splitOnChar, ha, hseg], hcseg⟩
        · cases hsp : splitOnChar sep t with
          | nil => rw [hsp] at hseg; cases hseg
          | cons hseg0 tsegs =>
            rw [hsp] at hseg
            rcases List.mem_cons.mp hseg with rfl | hmem
            · exact Or.inr ⟨a :: seg, by simp [splitOnChar, ha, hsp],
                List.mem_cons_of_mem a hcseg⟩
            · exact Or.inr ⟨seg, by simp [splitOnChar, ha, hsp, List.mem_cons, hmem], hcseg⟩

/-- The only characters satisfying `isWs` are the four whitespace
characters. -/
theorem eq_of_isWs (c : Char) (h : isWs c = true) :
    c = ' ' ∨ c = '\t' ∨ c = '\n' ∨ c = '\r' := by
  simp only [isWs, Bool.or_eq_true, decide_eq_true_eq] at h
  tauto

/-- ISO-timestamp characters are not whitespace. -/
theorem isIsoChar_not_ws (c : Char) (h : isIsoChar c = true) : isWs c = false := by
  cases hw : isWs c
  · rfl
  · exfalso
    rcases eq_of_isWs c hw with e | e | e | e <;> rw [e] at h <;> exact absurd h (by decide)

/-- Hexadecimal characters are not whitespace. -/
theorem isHexChar_not_ws (c : Char) (h : isHexChar c = true) : isWs c = false := by
  cases hw : isWs c
  · rfl
  · exfalso
    rcases eq_of_isWs c hw with e | e | e | e <;> rw [e] at h <;> exact absurd h (by decide)

/-- Every character of a UUID-shaped string is a dash or a hex digit. -/
theorem isUuid_chars (s : Str) (h : isUuid s = true) (c : Char) (hc : c ∈ s) :
    c = '-' ∨ isHexChar c = true := by
  unfold isUuid at h
  split at h
  · rename_i a b d e f hsplit
    rcases mem_splitOnChar '-' s c hc with e' | ⟨seg, hseg, hcseg⟩
    · exact Or.inl e'
    · right
      rw [hsplit] at hseg
      simp only [Bool.and_eq_true, decide_eq_true_eq, List.all_eq_true, and_assoc] at h
      obtain ⟨-, -, -, -, -, ha, hb, hd, he, hf⟩ := h
      fin_cases hseg
      · exact ha c hcseg
      · exact hb c hcseg
      · exact hd c hcseg
      · exact he c hcseg
      · exact hf c hcseg
  · exact absurd h (by decide)

end Oro

namespace Oro

/-- Inversion of a successful `cursorStringSchema` parse: the result is the
trimmed input, which splits on '|' into exactly two segments whose trimmed
forms are non-empty, `Date.parse`-able, and UUID-shaped respectively. -/
theorem cursorStringSchema_some (dp : Str → Option Int) (input parsed : Str)
    (h : cursorStringSchema dp input = some parsed) :
    parsed = jsTrim input ∧
    ∃ a b, splitOnChar '|' (jsTrim input) = [a, b] ∧
      jsTrim a ≠ [] ∧ (dp (jsTrim a)).isSome = true ∧
      jsTrim b ≠ [] ∧ isUuid (jsTrim b) = true := by
  simp only [cursorStringSchema] at h
  split at h
  · exact absurd h (by simp)
  · rename_i hne
    split at h
    · rename_i rawOccurredAt rawId hsplit
      split at h
      · exact absurd h (by simp)
      · split at h
        · exact absurd h (by simp)
        · split at h
          · exact absurd h (by simp)
          · split at h
            · exact absurd h (by simp)
            · rename_i hocc hdp hid huuid
              simp only [Option.some.injEq] at h
              subst h
              refine ⟨rfl, rawOccurredAt, rawId, hsplit, hocc, ?_, hid, ?_⟩
              · cases hdd : dp (jsTrim rawOccurredAt) with
                | none => exact absurd (by rw [hdd]; rfl) hdp
                | some v => rfl
              · simpa using huuid
    · exact absurd h (by simp)

end Oro

namespace Oro

/-! ## C2: cursor codec round trip and strict rejection -/

/-- C2: for every `Date.parse`-able ISO-8601 UTC timestamp string and every
UUID string, decoding the encoded cursor returns exactly the pair; and every
input `decodeExpenseCursor` accepts splits on '|' into exactly two non-empty
segments, the first a parseable timestamp and the second a UUID — so any
violation fails validation (yields the structural error, never a silent
fallback). -/
theorem expenseCursor_codec_spec (dp : Str → Option Int) :
    (∀ t i, (∀ c ∈ t, isIsoChar c = true) → t ≠ [] → (dp t).isSome = true →
      isUuid i = true →
      decodeExpenseCursor dp (encodeExpenseCursor { occurredAt := t, id := i }) =
        some { occurredAt := t, id := i }) ∧
    (∀ s c, decodeExpenseCursor dp s = some c →
      ∃ a b, splitOnChar '|' (jsTrim s) = [a, b] ∧
        jsTrim a ≠ [] ∧ (dp (jsTrim a)).isSome = true ∧
        jsTrim b ≠ [] ∧ isUuid (jsTrim b) = true) := by
  constructor
  · intro t i ht htne hdp hu
    have hwst : ∀ c ∈ t, isWs c = false := fun c hc => isIsoChar_not_ws c (ht c hc)
    have hpt : '|' ∉ t := fun hmem => absurd (ht '|' hmem) (by decide)
    have hwsi : ∀ c ∈ i, isWs c = false := by
      intro c hc
      rcases isUuid_chars i hu c hc with e | hhex
      · rw [e]; decide
      · exact isHexChar_not_ws c hhex
    have hpi : '|' ∉ i := by
      intro hmem
      rcases isUuid_chars i hu '|' hmem with e | hhex
      · exact absurd e (by decide)
      · exact absurd hhex (by decide)
    have henc : encodeExpenseCursor { occurredAt := t, id := i } = t ++ '|' :: i := rfl
    have hws : ∀ c ∈ t ++ '|' :: i, isWs c = false := by
      intro c hc
      rcases List.mem_append.mp hc with hc | hc
      · exact hwst c hc
      · rcases List.mem_cons.mp hc with rfl | hc
        · decide
        · exact hwsi c hc
    have htrim : jsTrim (t ++ '|' :: i) = t ++ '|' :: i := jsTrim_eq_self _ hws
    have hsplit : splitOnChar '|' (t ++ '|' :: i) = [t, i] := by
      rw [splitOnChar_append '|' t i hpt, splitOnChar_not_mem '|' i hpi]
    have hne2 : ¬(t ++ '|' :: i = []) := by simp
    have htt : jsTrim t = t := jsTrim_eq_self t hwst
    have hti : jsTrim i = i := jsTrim_eq_self i hwsi
    obtain ⟨v, hv⟩ := Option.isSome_iff_exists.mp hdp
    have hine : i ≠ [] := by
      intro e
      rw [e] at hu
      exact absurd hu (by decide)
    rw [henc]
    simp only [decodeExpenseCursor, cursorStringSchema, htrim, hsplit, if_neg hne2,
      htt, hti, if_neg htne, hv, if_neg hine]
    simp [hu, hsplit]
  · intro s c h
    simp only [decodeExpenseCursor] at h
    split at h
    · exact absurd h (by simp)
    · rename_i parsed hp
      obtain ⟨-, a, b, hab⟩ := cursorStringSchema_some dp s parsed hp
      exact ⟨a, b, hab⟩

/-- C2 witness: the round trip and the acceptance shape discharged on a
concrete timestamp/UUID pair under a concrete `Date.parse`. -/
theorem expenseCursor_codec_spec_witness :
    decodeExpenseCursor dpC2
        (encodeExpenseCursor { occurredAt := "2025-01-15T12:00:00.000Z".data,
                               id := "0f8fad5b-d9cb-469f-a165-70867728950e".data }) =
      some { occurredAt := "2025-01-15T12:00:00.000Z".data,
             id := "0f8fad5b-d9cb-469f-a165-70867728950e".data } ∧
    (∃ a b,
      splitOnChar '|'
          (jsTrim ("2025-01-15T12:00:00.000Z|0f8fad5b-d9cb-469f-a165-70867728950e".data)) =
        [a, b] ∧
      jsTrim a ≠ [] ∧ (dpC2 (jsTrim a)).isSome = true ∧
      jsTrim b ≠ [] ∧ isUuid (jsTrim b) = true) := by
  constructor
  · exact (expenseCursor_codec_spec dpC2).1
      "2025-01-15T12:00:00.000Z".data "0f8fad5b-d9cb-469f-a165-70867728950e".data
      (by decide) (by decide) (by decide) (by decide)
  · exact (expenseCursor_codec_spec dpC2).2
      "2025-01-15T12:00:00.000Z|0f8fad5b-d9cb-469f-a165-70867728950e".data
      { occurredAt := "2025-01-15T12:00:00.000Z".data,
        id := "0f8fad5b-d9cb-469f-a165-70867728950e".data }
      (by decide)

end Oro

namespace Oro

/-! ## Validation lemmas for the list endpoint -/

/-- Inversion of a successful `normalizeExpenseFilters` run: every raw field
validated, and the cross-field `superRefine` raised no issue. -/
theorem normalizeExpenseFilters_some_inv (dp : Str → Option Int)
    (jsNum : Str → Option ℚ) (raw : RawListQuery) (f : ParsedFilters)
    (h : normalizeExpenseFilters dp jsNum raw = some f) :
    optField raw.timeRange parseTimeRange = some f.timeRange ∧
    optField raw.fromQ (isoTimestampSchema dp) = some f.fromS ∧
    optField raw.toQ (isoTimestampSchema dp) = some f.toS ∧
    (match raw.categoryIds with
      | none => some none
      | some s => categoryIdsSchema s) = some f.categoryIds ∧
    optField raw.cursor (cursorStringSchema dp) ≠ none ∧
    optField raw.limit (limitSchema jsNum) ≠ none ∧
    filtersSchemaIssues dp f.timeRange f.fromS f.toS = false := by
  simp only [normalizeExpenseFilters] at h
  split at h
  · exact absurd h (by simp)
  · rename_i timeRangeV h1
    split at h
    · exact absurd h (by simp)
    · rename_i fromV h2
      split at h
      · exact absurd h (by simp)
      · rename_i toV h3
        split at h
        · exact absurd h (by simp)
        · rename_i categoryIdsV h4
          split at h
          · exact absurd h (by simp)
          · rename_i accountV h5
            split at h
            · exact absurd h (by simp)
            · rename_i searchV h6
              split at h
              · exact absurd h (by simp)
              · rename_i includeDeletedV h7
                split at h
                · exact absurd h (by simp)
                · rename_i cursorV h8
                  split at h
                  · exact absurd h (by simp)
                  · rename_i limitV h9
                    split at h
                    · exact absurd h (by simp)
                    · rename_i hguard
                      split at h
                      · exact absurd h (by simp)
                      · rename_i cursorDecoded h10
                        simp only [Option.some.injEq] at h
                        subst h
                        exact ⟨h1, h2, h3, h4, by simp [h8], by simp [h9],
                          by simpa using hguard⟩

/-- More than 20 distinct normalized category segments always fail
`categoryIdsSchema` (either at the UUID check or at the size check). -/
theorem categoryIdsSchema_none_of_many (s : Str)
    (h : 20 < (dedupFirst (categorySegments s)).length) :
    categoryIdsSchema s = none := by
  simp only [categoryIdsSchema]
  by_cases hall : (dedupFirst (categorySegments s)).all isUuid = true
  · rw [hall]
    simp [h]
  · rw [Bool.not_eq_true] at hall
    rw [hall]
    simp

/-- A non-empty limit string whose parsed number is absent, non-integral or
out of [1, 50] always fails `limitSchema`. -/
theorem limitSchema_none_of_invalid (jsNum : Str → Option ℚ) (s : Str)
    (hne : ¬(jsTrim s = []))
    (hbad : ∀ q, jsNum (jsTrim s) = some q → q.den ≠ 1 ∨ q < 1 ∨ 50 < q) :
    limitSchema jsNum s = none := by
  simp only [limitSchema]
  rw [if_neg hne]
  cases hq : jsNum (jsTrim s) with
  | none => rfl
  | some q =>
    rcases hbad q hq with hd | hb
    · simp [hd]
    · by_cases hd : q.den ≠ 1
      · simp [hd]
      · simp [hd, hb]

end Oro

namespace Oro

/-- Inversion of `optField` on a present raw field. -/
theorem optField_some_inv {α : Type} (raw : Option Str) (p : Str → Option α)
    (v : Option α) (s : Str) (hraw : raw = some s) (h : optField raw p = some v) :
    ∃ x, p s = some x ∧ v = some x := by
  rw [hraw] at h
  simp only [optField] at h
  cases hp : p s with
  | none => rw [hp] at h; simp at h
  | some x =>
    rw [hp] at h
    exact ⟨x, rfl, (Option.some.inj h).symm⟩

/-- Inversion of `optField` on an absent raw field. -/
theorem optField_none_inv {α : Type} (p : Str → Option α) (v : Option α)
    (h : optField none p = some v) : v = none :=
  (Option.some.inj h).symm

/-! ## C6: malformed list filters are rejected before any store read -/

/-- C6: for every malformed list filter set — a named time range combined
with an explicit from/to range, `from` supplied without `to` (or vice
versa), `from` parsing later than `to`, more than 20 distinct categoryIds, a
non-empty limit that is absent/non-integer/outside [1, 50] once parsed, or a
structurally invalid cursor — the GET handler answers the 400 validation
rejection, and it does so identically for every store: no read of the store
influences the outcome. -/
theorem listEndpoint_rejects_malformed_filters (dp : Str → Option Int)
    (jsNum : Str → Option ℚ) (uuidVal : Str → Nat) (searchOracle : Str → Str → Bool)
    (namedRange : TimeRange → Option Str → Int × Int) (userId : Nat) :
    (∀ raw trs tr fs ts, raw.timeRange = some trs → parseTimeRange trs = some tr →
      raw.fromQ = some fs → raw.toQ = some ts → ∀ store,
      handleListExpenses dp jsNum uuidVal searchOracle namedRange userId raw store =
        ListEndpointResponse.invalidQuery) ∧
    (∀ raw fs, raw.fromQ = some fs → raw.toQ = none → ∀ store,
      handleListExpenses dp jsNum uuidVal searchOracle namedRange userId raw store =
        ListEndpointResponse.invalidQuery) ∧
    (∀ raw ts, raw.fromQ = none → raw.toQ = some ts → ∀ store,
      handleListExpenses dp jsNum uuidVal searchOracle namedRange userId raw store =
        ListEndpointResponse.invalidQuery) ∧
    (∀ raw fs ts fv tv av bv, raw.fromQ = some fs → raw.toQ = some ts →
      isoTimestampSchema dp fs = some fv → isoTimestampSchema dp ts = some tv →
      dp fv = some av → dp tv = some bv → bv < av → ∀ store,
      handleListExpenses dp jsNum uuidVal searchOracle namedRange userId raw store =
        ListEndpointResponse.invalidQuery) ∧
    (∀ raw s, raw.categoryIds = some s →
      20 < (dedupFirst (categorySegments s)).length → ∀ store,
      handleListExpenses dp jsNum uuidVal searchOracle namedRange userId raw store =
        ListEndpointResponse.invalidQuery) ∧
    (∀ raw s, raw.limit = some s → ¬(jsTrim s = []) →
      (∀ q, jsNum (jsTrim s) = some q → q.den ≠ 1 ∨ q < 1 ∨ 50 < q) → ∀ store,
      handleListExpenses dp jsNum uuidVal searchOracle namedRange userId raw store =
        ListEndpointResponse.invalidQuery) ∧
    (∀ raw s, raw.cursor = some s → cursorStringSchema dp s = none → ∀ store,
      handleListExpenses dp jsNum uuidVal searchOracle namedRange userId raw store =
        ListEndpointResponse.invalidQuery) := by
  refine ⟨?_, ?_, ?_, ?_, ?_, ?_, ?_⟩
  · intro raw trs tr fs ts htr hptr hf hto store
    cases hn : normalizeExpenseFilters dp jsNum raw with
    | none => simp [handleListExpenses, hn]
    | some f =>
      exfalso
      obtain ⟨h1, h2, h3, -, -, -, hiss⟩ :=
        normalizeExpenseFilters_some_inv dp jsNum raw f hn
      obtain ⟨tr2, -, hftr⟩ := optField_some_inv raw.timeRange parseTimeRange
        f.timeRange trs htr h1
      obtain ⟨fv, -, hffv⟩ := optField_some_inv raw.fromQ (isoTimestampSchema dp)
        f.fromS fs hf h2
      obtain ⟨tv, -, hftv⟩ := optField_some_inv raw.toQ (isoTimestampSchema dp)
        f.toS ts hto h3
      rw [hftr, hffv, hftv] at hiss
      simp [filtersSchemaIssues] at hiss
  · intro raw fs hf hto store
    cases hn : normalizeExpenseFilters dp jsNum raw with
    | none => simp [handleListExpenses, hn]
    | some f =>
      exfalso
      obtain ⟨-, h2, h3, -, -, -, hiss⟩ :=
        normalizeExpenseFilters_some_inv dp jsNum raw f hn
      obtain ⟨fv, -, hffv⟩ := optField_some_inv raw.fromQ (isoTimestampSchema dp)
        f.fromS fs hf h2
      rw [hto] at h3
      have hft : f.toS = none := optField_none_inv (isoTimestampSchema dp) f.toS h3
      rw [hffv, hft] at hiss
      simp [filtersSchemaIssues] at hiss
  · intro raw ts hf hto store
    cases hn : normalizeExpenseFilters dp jsNum raw with
    | none => simp [handleListExpenses, hn]
    | some f =>
      exfalso
      obtain ⟨-, h2, h3, -, -, -, hiss⟩ :=
        normalizeExpenseFilters_some_inv dp jsNum raw f hn
      obtain ⟨tv, -, hftv⟩ := optField_some_inv raw.toQ (isoTimestampSchema dp)
        f.toS ts hto h3
      rw [hf] at h2
      have hff : f.fromS = none := optField_none_inv (isoTimestampSchema dp) f.fromS h2
      rw [hff, hftv] at hiss
      simp [filtersSchemaIssues] at hiss
  · intro raw fs ts fv tv av bv hf hto hiof hiot ha hb hlt store
    cases hn : normalizeExpenseFilters dp jsNum raw with
    | none => simp [handleListExpenses, hn]
    | some f =>
      exfalso
      obtain ⟨-, h2, h3, -, -, -, hiss⟩ :=
        normalizeExpenseFilters_some_inv dp jsNum raw f hn
      obtain ⟨fv2, hio2, hffv⟩ := optField_some_inv raw.fromQ (isoTimestampSchema dp)
        f.fromS fs hf h2
      obtain ⟨tv2, hio3, hftv⟩ := optField_some_inv raw.toQ (isoTimestampSchema dp)
        f.toS ts hto h3
      have hfv : fv2 = fv := Option.some.inj (hio2.symm.trans hiof)
      have htv : tv2 = tv := Option.some.inj (hio3.symm.trans hiot)
      rw [hffv, hftv, hfv, htv] at hiss
      simp [filtersSchemaIssues, ha, hb, hlt] at hiss
  · intro raw s hcat hcount store
    cases hn : normalizeExpenseFilters dp jsNum raw with
    | none => simp [handleListExpenses, hn]
    | some f =>
      exfalso
      obtain ⟨-, -, -, h4, -, -, -⟩ :=
        normalizeExpenseFilters_some_inv dp jsNum raw f hn
      rw [hcat] at h4
      have h4b : categoryIdsSchema s = some f.categoryIds := h4
      rw [categoryIdsSchema_none_of_many s hcount] at h4b
      exact Option.noConfusion h4b
  · intro raw s hlim hne hbad store
    cases hn : normalizeExpenseFilters dp jsNum raw with
    | none => simp [handleListExpenses, hn]
    | some f =>
      exfalso
      obtain ⟨-, -, -, -, -, h6, -⟩ :=
        normalizeExpenseFilters_some_inv dp jsNum raw f hn
      rw [hlim] at h6
      simp only [optField] at h6
      rw [limitSchema_none_of_invalid jsNum s hne hbad] at h6
      exact h6 rfl
  · intro raw s hcur hcs store
    cases hn : normalizeExpenseFilters dp jsNum raw with
    | none => simp [handleListExpenses, hn]
    | some f =>
      exfalso
      obtain ⟨-, -, -, -, h5, -, -⟩ :=
        normalizeExpenseFilters_some_inv dp jsNum raw f hn
      rw [hcur] at h5
      simp only [optField] at h5
      rw [hcs] at h5
      exact h5 rfl

end Oro

namespace Oro

/-- C6 witness: every rejection branch of
`listEndpoint_rejects_malformed_filters` discharged on concrete raw queries
against concrete oracles and the empty store. -/
theorem listEndpoint_rejects_malformed_filters_witness :
    handleListExpenses dpW jsNumW (fun _ => 0) (fun _ _ => false) (fun _ _ => (0, 0)) 1
        rawCombinedRange emptyListStore = ListEndpointResponse.invalidQuery ∧
    handleListExpenses dpW jsNumW (fun _ => 0) (fun _ _ => false) (fun _ _ => (0, 0)) 1
        rawFromOnly emptyListStore = ListEndpointResponse.invalidQuery ∧
    handleListExpenses dpW jsNumW (fun _ => 0) (fun _ _ => false) (fun _ _ => (0, 0)) 1
        { rawEmpty with toQ := some "2025-01-01T00:00:00.000Z".data } emptyListStore =
      ListEndpointResponse.invalidQuery ∧
    handleListExpenses dpW jsNumW (fun _ => 0) (fun _ _ => false) (fun _ _ => (0, 0)) 1
        rawFromAfterTo emptyListStore = ListEndpointResponse.invalidQuery ∧
    handleListExpenses dpW jsNumW (fun _ => 0) (fun _ _ => false) (fun _ _ => (0, 0)) 1
        rawTooManyCategories emptyListStore = ListEndpointResponse.invalidQuery ∧
    handleListExpenses dpW jsNumW (fun _ => 0) (fun _ _ => false) (fun _ _ => (0, 0)) 1
        rawZeroLimit emptyListStore = ListEndpointResponse.invalidQuery ∧
    handleListExpenses dpW jsNumW (fun _ => 0) (fun _ _ => false) (fun _ _ => (0, 0)) 1
        rawBadCursor emptyListStore = ListEndpointResponse.invalidQuery := by
  have h := listEndpoint_rejects_malformed_filters dpW jsNumW (fun _ => 0)
    (fun _ _ => false) (fun _ _ => (0, 0)) 1
  refine ⟨?_, ?_, ?_, ?_, ?_, ?_, ?_⟩
  · exact h.1 rawCombinedRange "this_month".data TimeRange.thisMonth
      "2025-01-01T00:00:00.000Z".data "2025-02-02T00:00:00.000Z".data
      rfl (by decide) rfl rfl emptyListStore
  · exact h.2.1 rawFromOnly "2025-01-01T00:00:00.000Z".data rfl rfl emptyListStore
  · exact h.2.2.1 { rawEmpty with toQ := some "2025-01-01T00:00:00.000Z".data }
      "2025-01-01T00:00:00.000Z".data rfl rfl emptyListStore
  · exact h.2.2.2.1 rawFromAfterTo
      "2025-02-02T00:00:00.000Z".data "2025-01-01T00:00:00.000Z".data
      "2025-02-02T00:00:00.000Z".data "2025-01-01T00:00:00.000Z".data
      1738454400000 1735689600000
      rfl rfl (by decide) (by decide) (by decide) (by decide) (by decide) emptyListStore
  · exact h.2.2.2.2.1 rawTooManyCategories
      "a,b,c,d,e,f,g,h,i,j,k,l,m,n,o,p,q,r,s,t,u".data rfl (by decide) emptyListStore
  · refine h.2.2.2.2.2.1 rawZeroLimit "0".data rfl (by decide) ?_ emptyListStore
    intro q hq
    have h0 : jsNumW (jsTrim "0".data) = some 0 := by decide
    rw [h0] at hq
    rw [← Option.some.inj hq]
    right
    left
    decide
  · exact h.2.2.2.2.2.2 rawBadCursor "not-a-cursor".data rfl (by decide) emptyListStore

end Oro
